import Mathlib

/-!
Verification of the cert-monitor repository (Go, `cmd/cert-monitor/main.go`)
against its natural-language specification.

Shallow embedding conventions:
* Go `time.Time` instants are modelled as integer seconds since the Unix
  epoch (`Int`).  Per the spec's timezone policy ("treat both as calendar
  dates in a single reference timezone"), the host clock is modelled as UTC,
  where `t.AddDate(0, 0, days)` equals adding `days * 86400` seconds.
* `time.Parse("2006-01-02", s)` is modelled by `parseISODate`, which accepts
  exactly the strings the Go layout accepts (four digit year, two digit
  month and day separated by `-`, with month and day range checks including
  leap years) and yields a calendar date.  A failed parse in Go leaves the
  zero `time.Time` (January 1, year 1 UTC), modelled by `goZeroSec`.
* Calendar dates are converted to day numbers since the epoch by
  `dateToDays`, the standard proleptic-Gregorian civil-from-days algorithm,
  matching Go's internal date arithmetic.
* `t.After(u)` is strict instant comparison `t > u`.
-/

namespace CertMonitor

/-- A calendar date, as extracted from a certificate's not-after timestamp
after normalisation to day granularity. -/
structure Date where
  year : Nat
  month : Nat
  day : Nat
deriving DecidableEq, Repr

/-- Proleptic-Gregorian leap-year rule, as used by Go's `time` package. -/
def isLeapYear (y : Nat) : Bool :=
  y % 4 == 0 && (y % 100 != 0 || y % 400 == 0)

/-- Number of days in a month, mirroring Go's `daysIn`. -/
def daysInMonth (year month : Nat) : Nat :=
  if month = 2 then (if isLeapYear year then 29 else 28)
  else if month = 4 ∨ month = 6 ∨ month = 9 ∨ month = 11 then 30
  else 31

/-- Value of a decimal digit character, `none` for non-digits. -/
def digitVal (c : Char) : Option Nat :=
  if c.isDigit then some (c.toNat - 48) else none

/-- Model of Go `time.Parse("2006-01-02", s)` at the level of calendar
dates: exactly ten characters `YYYY-MM-DD`, all digits in the date
positions, month in 1..12, day in range for the month (leap years
accounted for).  Any other string is a parse error (`none`). -/
def parseISODate (s : String) : Option Date :=
  match s.data with
  | [y1, y2, y3, y4, c1, m1, m2, c2, d1, d2] =>
    if c1 = '-' ∧ c2 = '-' then
      match digitVal y1, digitVal y2, digitVal y3, digitVal y4,
            digitVal m1, digitVal m2, digitVal d1, digitVal d2 with
      | some a, some b, some c, some d, some e, some f, some g, some h =>
        let year := 1000 * a + 100 * b + 10 * c + d
        let month := 10 * e + f
        let day := 10 * g + h
        if 1 ≤ month ∧ month ≤ 12 ∧ 1 ≤ day ∧ day ≤ daysInMonth year month then
          some ⟨year, month, day⟩
        else none
      | _, _, _, _, _, _, _, _ => none
    else none
  | _ => none

/-- Day number of a calendar date counted from the Unix epoch
(1970-01-01 is day 0), by the standard civil-from-days algorithm on the
proleptic Gregorian calendar — the same date line Go's `time` package
computes internally. -/
def dateToDays (dt : Date) : Int :=
  let y : Int := if dt.month ≤ 2 then (dt.year : Int) - 1 else (dt.year : Int)
  let m : Int := (dt.month : Int)
  let d : Int := (dt.day : Int)
  let era := Int.ediv y 400
  let yoe := y - era * 400
  let mp := if m > 2 then m - 3 else m + 9
  let doy := Int.ediv (153 * mp + 2) 5 + d - 1
  let doe := yoe * 365 + Int.ediv yoe 4 - Int.ediv yoe 100 + doy
  era * 146097 + doe - 719468

/-- The instant of Go's zero `time.Time` (January 1, year 1, 00:00 UTC) in
seconds since the Unix epoch.  This is what a failed `time.Parse` leaves in
`expires`. -/
def goZeroSec : Int := 86400 * dateToDays ⟨1, 1, 1⟩

/-- Model of `isDateWithinDays(ctx, targetDate, days)`:

    today := time.Now()
    expires, err := time.Parse("2006-01-02", targetDate)
    if err != nil { slog.Error(...) }          -- err is otherwise ignored
    return today.AddDate(0, 0, days).After(expires)

`now` is the instant returned by `time.Now()`.  On a parse error the Go
code logs and falls through with the zero `time.Time`, so the comparison
is made against `goZeroSec`. -/
def isDateWithinDays (now : Int) (targetDate : String) (days : Int) : Bool :=
  let expires : Int :=
    match parseISODate targetDate with
    | some dt => 86400 * dateToDays dt
    | none => goZeroSec
  decide (now + 86400 * days > expires)

/-- Zero-pad a number below 100 to two digits, as Go's `Format` layout
`01`/`02` does for month and day. -/
def pad2 (n : Nat) : String :=
  if n < 10 then "0" ++ toString n else toString n

/-- Zero-pad a year to four digits, as Go's `Format` layout `2006` does. -/
def pad4 (n : Nat) : String :=
  if n < 10 then "000" ++ toString n
  else if n < 100 then "00" ++ toString n
  else if n < 1000 then "0" ++ toString n
  else toString n

/-- Model of `cert.NotAfter.Format("2006-01-02")`: the ISO calendar date
`YYYY-MM-DD`. -/
def formatDate (dt : Date) : String :=
  pad4 dt.year ++ "-" ++ pad2 dt.month ++ "-" ++ pad2 dt.day

/-- The dial address built by `getDomain`: the Go code runs
`tls.Dial("tcp", domain+":443", tlsConfig)`, appending `:443`
unconditionally to the configured endpoint string. -/
def dialAddr (domain : String) : String := domain ++ ":443"

/-- Model of Go `strings.Join(elems, sep)`. -/
def joinSep (sep : String) : List String → String
  | [] => ""
  | [x] => x
  | x :: y :: xs => x ++ sep ++ joinSep sep (y :: xs)

/-- The `Domain` record of `main.go`. -/
structure Domain where
  CommonName : String
  DNSNames : List String
  Expires : String
  IsExpiringSoon : Bool
  Summary : String
deriving DecidableEq, Repr

/-- The identity attributes of the leaf certificate returned by the TLS
handshake in `getDomain` (`conn.ConnectionState().PeerCertificates[0]`):
subject common name, DNS alternate names in presented order, and the
not-after timestamp already normalised to a calendar date, since the code
only ever uses `cert.NotAfter.Format("2006-01-02")`. -/
structure Cert where
  commonName : String
  dnsNames : List String
  notAfter : Date
deriving DecidableEq, Repr

/-- The summary block built line-by-line in `getDomain` and joined with
`"\n"`:

    summary = append(summary, d.CommonName)
    summary = append(summary, fmt.Sprintf("  Expiring Soon: %v", d.IsExpiringSoon))
    summary = append(summary, fmt.Sprintf("  Expires:       %s", d.Expires))
    summary = append(summary, "  DNS Alt Names:")
    for _, dnsName := range d.DNSNames {
        summary = append(summary, fmt.Sprintf("    %s", dnsName))
    }
    d.Summary = strings.Join(summary, "\n")
-/
def buildSummary (commonName : String) (dnsNames : List String)
    (expires : String) (isExpiringSoon : Bool) : String :=
  joinSep "\n"
    ([commonName,
      "  Expiring Soon: " ++ (if isExpiringSoon then "true" else "false"),
      "  Expires:       " ++ expires,
      "  DNS Alt Names:"] ++ dnsNames.map (fun n => "    " ++ n))

/-- Model of `getDomain(ctx, domain)`.  The network is a parameter
`net` mapping a dial address to what `tls.Dial("tcp", addr, ...)`
yields there: either a connection error or the leaf certificate's
attributes.  The code dials `domain+":443"`; on success it formats the
expiry date, evaluates the expiry decision with the configured
threshold, and builds the summary block; on failure it returns the
error. -/
def getDomain (threshold : Int) (now : Int)
    (net : String → Except String Cert) (domain : String) :
    Except String Domain :=
  match net (dialAddr domain) with
  | Except.error e => Except.error e
  | Except.ok cert =>
    let expires := formatDate cert.notAfter
    let isExpiring := isDateWithinDays now expires threshold
    Except.ok
      { CommonName := cert.commonName
        DNSNames := cert.dnsNames
        Expires := expires
        IsExpiringSoon := isExpiring
        Summary := buildSummary cert.commonName cert.dnsNames expires isExpiring }

/-- Observable actions of one run, in program order:
* `probeErrorLogged`: `slog.Error("failed to dial domain", ...)` after a
  failed `getDomain`;
* `dispatch`: an invocation of the notification-dispatch capability
  (`sendEmail` reaching `d.DialAndSend`) with its subject and body;
* `deliveryErrorLogged`: `slog.Error("failed to send email", ...)` when
  `DialAndSend` fails;
* `printed`: `fmt.Println` writing its argument (plus a newline) to
  standard output. -/
inductive Event where
  | probeErrorLogged (err : String)
  | dispatch (subject : String) (body : String)
  | deliveryErrorLogged (err : String)
  | printed (s : String)
deriving DecidableEq, Repr

/-- Model of `sendEmail(ctx, subject, contents)`: always attempts delivery
(one `dispatch` event); when the transport fails (`deliver` returns an
error) the failure is logged and the function returns normally. -/
def sendEmail (deliver : String → String → Option String)
    (subject contents : String) : List Event :=
  Event.dispatch subject contents ::
    (match deliver subject contents with
     | some e => [Event.deliveryErrorLogged e]
     | none => [])

/-- The per-endpoint loop of `main`: for each configured domain name,
probe it; on error, log and `continue`; on success, append the `Domain`
to the collected list and, if it is expiring soon and `-print` is not
set, immediately send the individual alert email.  Returns the collected
domains and the trace of events, both in program order. -/
def checkDomains (threshold now : Int) (printOnly : Bool)
    (deliver : String → String → Option String)
    (net : String → Except String Cert) :
    List String → List Domain × List Event
  | [] => ([], [])
  | name :: rest =>
    match getDomain threshold now net name with
    | Except.error e =>
      let r := checkDomains threshold now printOnly deliver net rest
      (r.1, Event.probeErrorLogged e :: r.2)
    | Except.ok d =>
      let alerts :=
        if d.IsExpiringSoon && !printOnly then
          sendEmail deliver ("certificate expiration warning: " ++ name) d.Summary
        else []
      let r := checkDomains threshold now printOnly deliver net rest
      (d :: r.1, alerts ++ r.2)

/-- The aggregate summary body assembled in `main`:

    summaryLines := []string{}
    for _, domain := range domains {
        summaryLines = append(summaryLines, domain.Summary)
        summaryLines = append(summaryLines, "")
    }
    summary := fmt.Sprint(strings.Join(summaryLines, "\n"))
-/
def summaryBody (domains : List Domain) : String :=
  joinSep "\n" (List.flatten (domains.map (fun d => [d.Summary, ""])))

/-- The whole run of `main` after configuration loading: the per-endpoint
loop followed by the optional summary phase (`-summary` flag), which
either prints the aggregate body (`-print` flag) or dispatches it as a
single email with subject `"certificate summary"`. -/
def runMain (threshold now : Int) (printOnly summaryRequested : Bool)
    (deliver : String → String → Option String)
    (net : String → Except String Cert)
    (endpoints : List String) : List Domain × List Event :=
  let r := checkDomains threshold now printOnly deliver net endpoints
  let summaryEvents :=
    if summaryRequested then
      if printOnly then [Event.printed (summaryBody r.1)]
      else sendEmail deliver "certificate summary" (summaryBody r.1)
    else []
  (r.1, r.2 ++ summaryEvents)

/-- The successfully probed endpoints' `Domain` records, in configured
order — failures contribute nothing. -/
def probeSuccesses (threshold now : Int)
    (net : String → Except String Cert) (endpoints : List String) : List Domain :=
  endpoints.filterMap (fun name => (getDomain threshold now net name).toOption)

/-- Discriminates the run's summary emission: the aggregate is either
printed or dispatched under the fixed subject `"certificate summary"`. -/
def isSummaryEvent : Event → Bool
  | Event.printed _ => true
  | Event.dispatch s _ => decide (s = "certificate summary")
  | _ => false

/-- Discriminates invocations of the notification-dispatch capability. -/
def isDispatch : Event → Bool
  | Event.dispatch _ _ => true
  | _ => false

/-- Keeps every event except delivery-failure log lines. -/
def notDeliveryLog : Event → Bool
  | Event.deliveryErrorLogged _ => false
  | _ => true

/-- Modelled from the spec (Report Builder contract): a fixed-structure
multi-line block with the common name, the expiring-soon flag, the expiry
date as an ISO calendar date, and an indented list of every alternate
name in the order presented by the certificate. -/
def specAltNamesBlock : List String → String
  | [] => ""
  | n :: ns => "\n" ++ "    " ++ n ++ specAltNamesBlock ns

/-- Modelled from the spec (Report Builder contract), to be compared with
`buildSummary`. -/
def specRenderedSummary (commonName : String) (names : List String)
    (expires : String) (flag : Bool) : String :=
  commonName ++ "\n" ++ "  Expiring Soon: " ++ (if flag then "true" else "false")
    ++ "\n" ++ "  Expires:       " ++ expires
    ++ "\n" ++ "  DNS Alt Names:" ++ specAltNamesBlock names

/-- The tail of a `"\n"`-join: each remaining element prefixed by a
newline. -/
def tailJoin : List String → String
  | [] => ""
  | y :: ys => "\n" ++ y ++ tailJoin ys

/-- A sample leaf certificate used to instantiate theorems. -/
def exCert : Cert :=
  { commonName := "example.com"
    dnsNames := ["example.com", "www.example.com"]
    notAfter := ⟨2024, 1, 10⟩ }

/-- A sample instant: 2024-01-10, one hour past midnight UTC. -/
def nowEx : Int := 86400 * 19732 + 3600

/-- The `Domain` record `getDomain` produces for `exCert` at instant
`nowEx` with threshold 30. -/
def dEx : Domain :=
  { CommonName := "example.com"
    DNSNames := ["example.com", "www.example.com"]
    Expires := "2024-01-10"
    IsExpiringSoon := true
    Summary :=
      buildSummary "example.com" ["example.com", "www.example.com"] "2024-01-10" true }

/-- A network where every dial succeeds with `exCert`. -/
def netAll : String → Except String Cert := fun _ => Except.ok exCert

/-- A network where every dial fails. -/
def netNone : String → Except String Cert := fun _ => Except.error "connection refused"

/-- A network that fails exactly at `example.com:443` and succeeds
elsewhere. -/
def netSplit : String → Except String Cert := fun addr =>
  if addr = "example.com:443" then Except.error "connection refused" else Except.ok exCert

/-- A notification transport that always delivers. -/
def deliverOk : String → String → Option String := fun _ _ => none

/-- A notification transport that always fails. -/
def deliverBoom : String → String → Option String := fun _ _ => some "boom"

/- ------------------------------------------------------------------ -/
/- Helper lemmas                                                       -/
/- ------------------------------------------------------------------ -/

theorem joinSep_cons_eq_tailJoin (x : String) (xs : List String) :
    joinSep "\n" (x :: xs) = x ++ tailJoin xs := by
  induction xs generalizing x with
  | nil => simp [joinSep, tailJoin, String.append_empty]
  | cons y ys ih =>
    simp only [joinSep, tailJoin, ih y, String.append_assoc]

theorem tailJoin_map_indent (names : List String) :
    tailJoin (names.map (fun n => "    " ++ n)) = specAltNamesBlock names := by
  induction names with
  | nil => rfl
  | cons n ns ih =>
    simp only [List.map_cons, tailJoin, specAltNamesBlock, ih, String.append_assoc]

/- ------------------------------------------------------------------ -/
/- Claim theorems                                                      -/
/- ------------------------------------------------------------------ -/

/-- C1 (counterexample): the claimed day-granularity boundary rule fails.
With `now` exactly at midnight UTC of 2024-01-10 and threshold 0, the
day-granularity condition `day(now) + thresholdDays ≥ notAfterDate` holds
with equality (the claim's boundary, so the claim predicts `true`), yet
`isDateWithinDays` returns `false`, because the Go code compares instants
strictly (`After`) against midnight of the expiry date rather than
comparing calendar days inclusively. -/
theorem C1_counterexample :
    isDateWithinDays (86400 * dateToDays ⟨2024, 1, 10⟩) "2024-01-10" 0 = false ∧
      dateToDays ⟨2024, 1, 10⟩ + 0 ≥ dateToDays ⟨2024, 1, 10⟩ := by
  constructor
  · decide
  · decide

/-- C1 (amended): for a well-formed `notAfterDate` string denoting date
`dt`, `isDateWithinDays` returns `true` iff the instant
`now + thresholdDays` days is strictly after midnight of `dt`.  At day
granularity this means: whenever `now`'s time of day is strictly past
midnight, the result is `true` iff `day(now) + thresholdDays ≥ dt`,
inclusive of the exact boundary; only at `now` exactly midnight does the
boundary case yield `false`. -/
theorem C1_amended_strict_after (s : String) (dt : Date)
    (hs : parseISODate s = some dt) (nowDay tod days : Int)
    (h0 : 0 < tod) (h1 : tod < 86400) :
    isDateWithinDays (86400 * nowDay + tod) s days = true ↔
      nowDay + days ≥ dateToDays dt := by
  simp only [isDateWithinDays, hs, decide_eq_true_eq]
  omega

/-- C1 (witness for the amended theorem): 2024-01-10 one second past
midnight, threshold 0 — the boundary day triggers `true`. -/
theorem C1_amended_strict_after_witness :
    isDateWithinDays (86400 * 19732 + 1) "2024-01-10" 0 = true ↔
      (19732 : Int) + 0 ≥ dateToDays ⟨2024, 1, 10⟩ :=
  C1_amended_strict_after "2024-01-10" ⟨2024, 1, 10⟩ (by decide) 19732 1 0
    (by decide) (by decide)

/-- C2: on a malformed `notAfterDate` the evaluator does not propagate an
error: `time.Parse` fails, the error is only logged, the zero `time.Time`
(January 1, year 1) is used as the expiry instant, and the comparison
silently defaults the expiry decision to `true` (already for
`now` = 1970-01-01 00:00 UTC and threshold 0); the report is never marked
failed.  This contradicts the claim, which matches the spec's stated
intent — a code bug. -/
theorem C2_malformed_defaults_true :
    parseISODate "garbage" = none ∧ isDateWithinDays 0 "garbage" 0 = true := by
  constructor
  · decide
  · decide

/-- C6 (counterexample): the prober does not honor a `host:port` endpoint.
For the endpoint `"example.com:8443"` the dialed address is
`"example.com:8443:443"` — the port 443 suffix is appended
unconditionally — rather than the claimed connection on the specified
port 8443 (address `"example.com:8443"`). -/
theorem C6_counterexample :
    dialAddr "example.com:8443" = "example.com:8443:443" ∧
      dialAddr "example.com:8443" ≠ "example.com:8443" := by
  constructor
  · rfl
  · decide

/-- C6 (amended): the prober treats every endpoint string as a bare host
and always dials `endpoint ++ ":443"`: the probe result depends on the
network only at that single address. -/
theorem C6_amended_always_443 (threshold now : Int)
    (net net' : String → Except String Cert) (domain : String)
    (h : net (domain ++ ":443") = net' (domain ++ ":443")) :
    getDomain threshold now net domain = getDomain threshold now net' domain ∧
      dialAddr domain = domain ++ ":443" := by
  constructor
  · unfold getDomain dialAddr
    rw [show net (domain ++ ":443") = net' (domain ++ ":443") from h]
  · rfl

/-- C6 (witness for the amended theorem): two networks agreeing at
`"example.com:443"` give the same probe result for `"example.com"`. -/
theorem C6_amended_always_443_witness :
    getDomain 30 nowEx netNone "example.com" = getDomain 30 nowEx netSplit "example.com" ∧
      dialAddr "example.com" = "example.com" ++ ":443" :=
  C6_amended_always_443 30 nowEx netNone netSplit "example.com" (by rfl)

theorem checkDomains_fst (threshold now : Int) (printOnly : Bool)
    (deliver : String → String → Option String)
    (net : String → Except String Cert) (endpoints : List String) :
    (checkDomains threshold now printOnly deliver net endpoints).1 =
      probeSuccesses threshold now net endpoints := by
  induction endpoints with
  | nil => rfl
  | cons name rest ih =>
    cases h : getDomain threshold now net name with
    | error e =>
      simp [checkDomains, probeSuccesses, List.filterMap_cons, h, Except.toOption] at ih ⊢
      exact ih
    | ok d =>
      simp [checkDomains, probeSuccesses, List.filterMap_cons, h, Except.toOption] at ih ⊢
      exact ih

theorem checkDomains_append (threshold now : Int) (printOnly : Bool)
    (deliver : String → String → Option String)
    (net : String → Except String Cert) (xs ys : List String) :
    checkDomains threshold now printOnly deliver net (xs ++ ys) =
      ((checkDomains threshold now printOnly deliver net xs).1 ++
         (checkDomains threshold now printOnly deliver net ys).1,
       (checkDomains threshold now printOnly deliver net xs).2 ++
         (checkDomains threshold now printOnly deliver net ys).2) := by
  induction xs with
  | nil => simp [checkDomains]
  | cons name rest ih =>
    cases h : getDomain threshold now net name with
    | error e => simp [checkDomains, h, ih]
    | ok d => simp [checkDomains, h, ih]

theorem alertSubject_ne_summary (s : String) :
    ("certificate expiration warning: " ++ s) ≠ "certificate summary" := by
  intro h
  have hl := congrArg String.length h
  rw [String.length_append] at hl
  have h32 : ("certificate expiration warning: " : String).length = 32 := rfl
  have h19 : ("certificate summary" : String).length = 19 := rfl
  rw [h32, h19] at hl
  omega

theorem sendEmail_filter_summary (deliver : String → String → Option String)
    (s b : String) (hs : s ≠ "certificate summary") :
    (sendEmail deliver s b).filter isSummaryEvent = [] := by
  unfold sendEmail
  cases h : deliver s b <;>
    simp [isSummaryEvent, List.filter, hs]

theorem checkDomains_filter_summary (threshold now : Int) (printOnly : Bool)
    (deliver : String → String → Option String)
    (net : String → Except String Cert) (endpoints : List String) :
    (checkDomains threshold now printOnly deliver net endpoints).2.filter
      isSummaryEvent = [] := by
  induction endpoints with
  | nil => rfl
  | cons name rest ih =>
    cases h : getDomain threshold now net name with
    | error e => simp [checkDomains, h, List.filter, isSummaryEvent, ih]
    | ok d =>
      by_cases hc : (d.IsExpiringSoon && !printOnly) = true
      · simp [checkDomains, h, hc, List.filter_append, ih,
          sendEmail_filter_summary deliver _ _ (alertSubject_ne_summary name)]
      · simp [checkDomains, h, hc, List.filter_append, ih]

theorem runMain_filter_summary (threshold now : Int) (printOnly : Bool)
    (deliver : String → String → Option String)
    (net : String → Except String Cert) (endpoints : List String) :
    (runMain threshold now printOnly true deliver net endpoints).2.filter
        isSummaryEvent =
      [if printOnly then
         Event.printed (summaryBody (probeSuccesses threshold now net endpoints))
       else
         Event.dispatch "certificate summary"
           (summaryBody (probeSuccesses threshold now net endpoints))] := by
  unfold runMain
  rw [List.filter_append, checkDomains_filter_summary, List.nil_append,
    checkDomains_fst]
  cases printOnly with
  | true => simp [List.filter, isSummaryEvent]
  | false =>
    cases h : deliver "certificate summary"
        (summaryBody (probeSuccesses threshold now net endpoints)) <;>
      simp [sendEmail, h, List.filter, isSummaryEvent]

/-- C3: for every run with the summary requested, whatever the endpoint
outcomes, flags and delivery outcomes (and hence however many individual
alerts were triggered), the run emits exactly one aggregate-summary
action — printed in print-only mode, dispatched with subject
`"certificate summary"` otherwise — and its body is `summaryBody` of
exactly the successfully probed endpoints' rendered summaries, in the
original configured order (`probeSuccesses` keeps configured order and
drops every failed probe). -/
theorem C3_summary_exactly_once (threshold now : Int) (printOnly : Bool)
    (deliver : String → String → Option String)
    (net : String → Except String Cert) (endpoints : List String) :
    (runMain threshold now printOnly true deliver net endpoints).2.filter
        isSummaryEvent =
      [if printOnly then
         Event.printed (summaryBody (probeSuccesses threshold now net endpoints))
       else
         Event.dispatch "certificate summary"
           (summaryBody (probeSuccesses threshold now net endpoints))] :=
  runMain_filter_summary threshold now printOnly deliver net endpoints

/-- C4: a probe failure never aborts the run.  Splitting the configured
list around any endpoint whose probe fails, the loop logs that failure
and otherwise behaves exactly as the concatenation of the runs on the
endpoints before and after it: every remaining endpoint is still
processed, and the failing endpoint contributes no report. -/
theorem C4_probe_failure_continues (threshold now : Int) (printOnly : Bool)
    (deliver : String → String → Option String)
    (net : String → Except String Cert) (xs ys : List String) (name e : String)
    (hfail : getDomain threshold now net name = Except.error e) :
    checkDomains threshold now printOnly deliver net (xs ++ name :: ys) =
      ((checkDomains threshold now printOnly deliver net xs).1 ++
         (checkDomains threshold now printOnly deliver net ys).1,
       (checkDomains threshold now printOnly deliver net xs).2 ++
         Event.probeErrorLogged e ::
           (checkDomains threshold now printOnly deliver net ys).2) := by
  rw [checkDomains_append]
  simp [checkDomains, hfail]

/-- C4 (witness): a concrete three-endpoint run whose middle endpoint is
unreachable — both neighbours are still processed and the failure is
logged in between. -/
theorem C4_probe_failure_continues_witness :
    checkDomains 30 nowEx false deliverOk netNone (["a"] ++ "bad" :: ["b"]) =
      ((checkDomains 30 nowEx false deliverOk netNone ["a"]).1 ++
         (checkDomains 30 nowEx false deliverOk netNone ["b"]).1,
       (checkDomains 30 nowEx false deliverOk netNone ["a"]).2 ++
         Event.probeErrorLogged "connection refused" ::
           (checkDomains 30 nowEx false deliverOk netNone ["b"]).2) :=
  C4_probe_failure_continues 30 nowEx false deliverOk netNone ["a"] ["b"]
    "bad" "connection refused" (by rfl)

/-- C5: in print-only mode the notification-dispatch capability is never
invoked — the run's trace contains zero `dispatch` events for every
combination of endpoint outcomes, expiry triggers, summary flag and
delivery behavior — and when the summary is requested the aggregate body
is printed to standard output instead. -/
theorem C5_print_only_no_dispatch (threshold now : Int) (summaryRequested : Bool)
    (deliver : String → String → Option String)
    (net : String → Except String Cert) (endpoints : List String) :
    (runMain threshold now true summaryRequested deliver net endpoints).2.countP
        isDispatch = 0 ∧
      Event.printed (summaryBody (probeSuccesses threshold now net endpoints)) ∈
        (runMain threshold now true true deliver net endpoints).2 := by
  constructor
  · unfold runMain
    rw [List.countP_append]
    have hloop : ∀ eps : List String,
        (checkDomains threshold now true deliver net eps).2.countP isDispatch = 0 := by
      intro eps
      induction eps with
      | nil => rfl
      | cons name rest ih =>
        cases h : getDomain threshold now net name with
        | error e => simp [checkDomains, h, List.countP_cons, isDispatch, ih]
        | ok d => simp [checkDomains, h, ih]
    rw [hloop]
    cases summaryRequested <;> simp [isDispatch, List.countP_cons]
  · simp only [runMain, if_pos rfl, checkDomains_fst]
    simp

theorem sendEmail_log_of_fail (deliver : String → String → Option String)
    (s b e : String) (h : deliver s b = some e) :
    Event.deliveryErrorLogged e ∈ sendEmail deliver s b := by
  simp [sendEmail, h]

theorem sendEmail_dispatch_inv (deliver : String → String → Option String)
    (s b s' b' : String) (h : Event.dispatch s b ∈ sendEmail deliver s' b') :
    s = s' ∧ b = b' := by
  unfold sendEmail at h
  cases hd : deliver s' b' <;> rw [hd] at h <;> simp at h <;> exact h

theorem sendEmail_filter_visible (deliver : String → String → Option String)
    (s b : String) :
    (sendEmail deliver s b).filter notDeliveryLog = [Event.dispatch s b] := by
  unfold sendEmail
  cases hd : deliver s b <;> simp [List.filter, notDeliveryLog]

theorem checkDomains_filter_visible (threshold now : Int) (printOnly : Bool)
    (deliver deliver' : String → String → Option String)
    (net : String → Except String Cert) (endpoints : List String) :
    (checkDomains threshold now printOnly deliver net endpoints).2.filter
        notDeliveryLog =
      (checkDomains threshold now printOnly deliver' net endpoints).2.filter
        notDeliveryLog := by
  induction endpoints with
  | nil => rfl
  | cons name rest ih =>
    cases h : getDomain threshold now net name with
    | error e => simp [checkDomains, h, List.filter, notDeliveryLog, ih]
    | ok d =>
      by_cases hc : (d.IsExpiringSoon && !printOnly) = true
      · simp [checkDomains, h, hc, List.filter_append, ih, sendEmail_filter_visible]
      · simp [checkDomains, h, hc, ih]

theorem checkDomains_dispatch_logged (threshold now : Int) (printOnly : Bool)
    (deliver : String → String → Option String)
    (net : String → Except String Cert) (s b e : String)
    (hfail : deliver s b = some e) :
    ∀ endpoints, Event.dispatch s b ∈
        (checkDomains threshold now printOnly deliver net endpoints).2 →
      Event.deliveryErrorLogged e ∈
        (checkDomains threshold now printOnly deliver net endpoints).2 := by
  intro endpoints
  induction endpoints with
  | nil => simp [checkDomains]
  | cons name rest ih =>
    cases h : getDomain threshold now net name with
    | error e2 =>
      simp only [checkDomains, h]
      intro hm
      rcases List.mem_cons.mp hm with heq | hm2
      · exact absurd heq (by simp)
      · exact List.mem_cons_of_mem _ (ih hm2)
    | ok d =>
      by_cases hc : (d.IsExpiringSoon && !printOnly) = true
      · simp only [checkDomains, h, hc, if_pos]
        intro hm
        rcases List.mem_append.mp hm with ha | hr
        · obtain ⟨hs, hb⟩ := sendEmail_dispatch_inv deliver s b _ _ ha
          rw [hs, hb] at hfail
          exact List.mem_append_left _ (sendEmail_log_of_fail deliver _ _ e hfail)
        · exact List.mem_append_right _ (ih hr)
      · simp only [checkDomains, h, hc, if_neg, List.nil_append]
        exact ih

theorem runMain_dispatch_logged (threshold now : Int)
    (printOnly summaryRequested : Bool)
    (deliver : String → String → Option String)
    (net : String → Except String Cert) (endpoints : List String)
    (s b e : String) (hfail : deliver s b = some e)
    (hm : Event.dispatch s b ∈
      (runMain threshold now printOnly summaryRequested deliver net endpoints).2) :
    Event.deliveryErrorLogged e ∈
      (runMain threshold now printOnly summaryRequested deliver net endpoints).2 := by
  simp only [runMain] at hm ⊢
  rcases List.mem_append.mp hm with h1 | h2
  · exact List.mem_append_left _
      (checkDomains_dispatch_logged threshold now printOnly deliver net s b e
        hfail endpoints h1)
  · refine List.mem_append_right _ ?_
    cases summaryRequested with
    | false => simp at h2
    | true =>
      cases printOnly with
      | true => simp at h2
      | false =>
        simp only [if_pos rfl, Bool.false_eq_true, if_false] at h2 ⊢
        obtain ⟨hs, hb⟩ := sendEmail_dispatch_inv deliver s b _ _ h2
        rw [hs, hb] at hfail
        exact sendEmail_log_of_fail deliver _ _ e hfail

/-- C8: notification delivery failures are harmless and surfaced.  The
collected domain reports and every non-delivery-log event of the run are
identical whatever the delivery outcomes (so a failed delivery neither
crashes the run nor prevents processing of remaining endpoints, and the
run still reports the same successes), and every dispatch whose delivery
fails leaves a `deliveryErrorLogged` event in the trace. -/
theorem C8_delivery_failure_tolerated (threshold now : Int)
    (printOnly summaryRequested : Bool)
    (deliver deliver' : String → String → Option String)
    (net : String → Except String Cert) (endpoints : List String) :
    (runMain threshold now printOnly summaryRequested deliver net endpoints).1 =
        (runMain threshold now printOnly summaryRequested deliver' net endpoints).1 ∧
      (runMain threshold now printOnly summaryRequested deliver net
            endpoints).2.filter notDeliveryLog =
        (runMain threshold now printOnly summaryRequested deliver' net
            endpoints).2.filter notDeliveryLog ∧
      ∀ s b e,
        Event.dispatch s b ∈
            (runMain threshold now printOnly summaryRequested deliver net
              endpoints).2 →
          deliver s b = some e →
            Event.deliveryErrorLogged e ∈
              (runMain threshold now printOnly summaryRequested deliver net
                endpoints).2 := by
  refine ⟨?_, ?_, ?_⟩
  · simp only [runMain, checkDomains_fst]
  · simp only [runMain, checkDomains_fst]
    rw [List.filter_append, List.filter_append,
      checkDomains_filter_visible threshold now printOnly deliver deliver' net endpoints]
    cases summaryRequested with
    | false => rfl
    | true =>
      cases printOnly with
      | true => rfl
      | false => simp [sendEmail_filter_visible]
  · intro s b e hm hfail
    exact runMain_dispatch_logged threshold now printOnly summaryRequested deliver
      net endpoints s b e hfail hm

/-- C8 (witness): a failing transport on an empty endpoint list with the
summary requested — the summary dispatch fails and the failure shows up
as a logged event. -/
theorem C8_delivery_failure_tolerated_witness :
    Event.deliveryErrorLogged "boom" ∈
      (runMain 30 nowEx false true deliverBoom netNone []).2 :=
  (C8_delivery_failure_tolerated 30 nowEx false true deliverBoom deliverOk
      netNone []).2.2 "certificate summary" "" "boom" (by decide) rfl

/-- C9: when the summary is requested and no endpoint probes successfully
(an empty configured list included), the aggregate summary is still
emitted exactly once with an empty body — printed as an empty line in
print-only mode, dispatched as an empty-bodied notification otherwise. -/
theorem C9_summary_empty_when_no_success (threshold now : Int) (printOnly : Bool)
    (deliver : String → String → Option String)
    (net : String → Except String Cert) (endpoints : List String)
    (hfail : ∀ name ∈ endpoints, ∃ e, net (dialAddr name) = Except.error e) :
    (runMain threshold now printOnly true deliver net endpoints).2.filter
        isSummaryEvent =
      [if printOnly then Event.printed "" else
        Event.dispatch "certificate summary" ""] := by
  have hnil : probeSuccesses threshold now net endpoints = [] := by
    induction endpoints with
    | nil => rfl
    | cons name rest ih =>
      obtain ⟨e, he⟩ := hfail name (List.mem_cons_self name rest)
      simp only [probeSuccesses, List.filterMap_cons, getDomain, he]
      exact ih (fun n hn => hfail n (List.mem_cons_of_mem _ hn))
  rw [runMain_filter_summary, hnil]
  rfl

/-- C9 (witness): one unreachable endpoint, summary requested, email
mode — a single empty-bodied summary dispatch. -/
theorem C9_summary_empty_when_no_success_witness :
    (runMain 30 nowEx false true deliverOk netNone ["x"]).2.filter isSummaryEvent =
      [if false then Event.printed "" else
        Event.dispatch "certificate summary" ""] :=
  C9_summary_empty_when_no_success 30 nowEx false deliverOk netNone ["x"]
    (fun _ _ => ⟨"connection refused", rfl⟩)

theorem checkDomains_alert_mem (threshold now : Int)
    (deliver : String → String → Option String)
    (net : String → Except String Cert) (endpoints : List String)
    (name : String) (d : Domain) (hmem : name ∈ endpoints)
    (hd : getDomain threshold now net name = Except.ok d)
    (hexp : d.IsExpiringSoon = true) :
    Event.dispatch ("certificate expiration warning: " ++ name) d.Summary ∈
      (checkDomains threshold now false deliver net endpoints).2 := by
  induction endpoints with
  | nil => simp at hmem
  | cons n rest ih =>
    rcases List.mem_cons.mp hmem with heq | hm
    · subst heq
      simp [checkDomains, hd, hexp, sendEmail]
    · cases h : getDomain threshold now net n with
      | error e =>
        simp only [checkDomains, h]
        exact List.mem_cons_of_mem _ (ih hm)
      | ok d2 =>
        simp only [checkDomains, h]
        exact List.mem_append_right _ (ih hm)

theorem checkDomains_domain_mem (threshold now : Int) (printOnly : Bool)
    (deliver : String → String → Option String)
    (net : String → Except String Cert) (endpoints : List String)
    (name : String) (d : Domain) (hmem : name ∈ endpoints)
    (hd : getDomain threshold now net name = Except.ok d) :
    d ∈ (checkDomains threshold now printOnly deliver net endpoints).1 := by
  induction endpoints with
  | nil => simp at hmem
  | cons n rest ih =>
    rcases List.mem_cons.mp hmem with heq | hm
    · subst heq
      simp [checkDomains, hd]
    · cases h : getDomain threshold now net n with
      | error e =>
        simp only [checkDomains, h]
        exact ih hm
      | ok d2 =>
        simp only [checkDomains, h]
        exact List.mem_cons_of_mem _ (ih hm)

/-- C10: for a successfully probed endpoint that triggers an individual
alert (expiring soon, email mode), the alert's body is the endpoint's
`Summary` string — the single rendering built during the probe — and that
same string is the endpoint's entry among the summaries the aggregate
body is assembled from. -/
theorem C10_alert_body_matches_summary_entry (threshold now : Int)
    (summaryRequested : Bool) (deliver : String → String → Option String)
    (net : String → Except String Cert) (endpoints : List String)
    (name : String) (d : Domain) (hmem : name ∈ endpoints)
    (hd : getDomain threshold now net name = Except.ok d)
    (hexp : d.IsExpiringSoon = true) :
    Event.dispatch ("certificate expiration warning: " ++ name) d.Summary ∈
        (runMain threshold now false summaryRequested deliver net endpoints).2 ∧
      d.Summary ∈
        (runMain threshold now false summaryRequested deliver net
          endpoints).1.map Domain.Summary := by
  constructor
  · simp only [runMain]
    exact List.mem_append_left _
      (checkDomains_alert_mem threshold now deliver net endpoints name d hmem hd hexp)
  · simp only [runMain]
    exact List.mem_map_of_mem Domain.Summary
      (checkDomains_domain_mem threshold now false deliver net endpoints name d
        hmem hd)

/-- C10 (witness): a concrete expiring endpoint — the alert body and the
aggregate-summary entry are the same `dEx.Summary` string. -/
theorem C10_alert_body_matches_summary_entry_witness :
    Event.dispatch ("certificate expiration warning: " ++ "example.com")
        dEx.Summary ∈
        (runMain 30 nowEx false false deliverOk netAll ["example.com"]).2 ∧
      dEx.Summary ∈
        (runMain 30 nowEx false false deliverOk netAll
          ["example.com"]).1.map Domain.Summary :=
  C10_alert_body_matches_summary_entry 30 nowEx false deliverOk netAll
    ["example.com"] "example.com" dEx (by simp) (by rfl) rfl

/-- C7: rendering a report is deterministic — `buildSummary` is a pure
function of the certificate facts and the expiring-soon flag — and its
output is the fixed-structure multi-line block of the spec: the common
name, the expiring-soon flag, the expiry date as the ISO calendar date
`formatDate dt`, and the indented alternate names in exactly the
presented order (`specRenderedSummary` lists them by structural
recursion, with no sorting). -/
theorem C7_render_structure (commonName : String) (names : List String)
    (dt : Date) (flag : Bool) :
    buildSummary commonName names (formatDate dt) flag =
      specRenderedSummary commonName names (formatDate dt) flag := by
  unfold buildSummary specRenderedSummary
  simp only [List.cons_append, List.nil_append]
  rw [joinSep_cons_eq_tailJoin]
  simp only [tailJoin]
  rw [tailJoin_map_indent]
  simp only [String.append_assoc]

end CertMonitor

